import Mathlib

/-
Verification of the port-monitor core (port_info.py, port_resolution.py).

Python strings are embedded as `List Char`; the small helpers below model the
exact Python string primitives the source uses (str.strip, str.split,
str.splitlines restricted to the '\x5cn' separator, int(), str(nat)).
External effects (socket binds, subprocess runs, os.kill, os.environ) are
modelled by explicit oracles / state parameters passed to the embedded
functions.
-/

/-- Whitespace characters recognised by Python's str.strip / str.split. -/
def isPySpace (c : Char) : Bool :=
  c == ' ' || c == '\t' || c == '\n' || c == '\r' || c == '\x0b' || c == '\x0c'

/-- Python str.strip(): remove leading and trailing whitespace. -/
def pyStrip (s : List Char) : List Char :=
  ((s.dropWhile isPySpace).reverse.dropWhile isPySpace).reverse

/-- Accumulator worker for `splitLines`; `cur` holds the current line reversed. -/
def splitLinesGo : List Char → List Char → List (List Char)
  | [], cur => [cur.reverse]
  | c :: cs, cur =>
    if c = '\n' then cur.reverse :: splitLinesGo cs []
    else splitLinesGo cs (c :: cur)

/-- Python str.splitlines() restricted to the newline separator.  (When the
input ends in a newline this produces one extra empty segment that Python
omits; the parser filters blank lines immediately afterwards, so the two
agree on everything the source observes.) -/
def splitLines (s : List Char) : List (List Char) :=
  match s with
  | [] => []
  | _ => splitLinesGo s []

/-- Accumulator worker for `pyWords`; `cur` holds the current token reversed. -/
def pyWordsGo : List Char → List Char → List (List Char)
  | [], cur => if cur.isEmpty then [] else [cur.reverse]
  | c :: cs, cur =>
    if isPySpace c then
      if cur.isEmpty then pyWordsGo cs [] else cur.reverse :: pyWordsGo cs []
    else pyWordsGo cs (c :: cur)

/-- Python str.split() with no argument: split on runs of whitespace,
discarding empty tokens. -/
def pyWords (s : List Char) : List (List Char) :=
  pyWordsGo s []

/-- Python " ".join(xs). -/
def joinSpace (xs : List (List Char)) : List Char :=
  List.intercalate [' '] xs

/-- No two adjacent underscores (part of Python's int() literal grammar). -/
def noDoubleUnderscore : List Char → Bool
  | c :: d :: rest => !(c == '_' && d == '_') && noDoubleUnderscore (d :: rest)
  | _ => true

/-- Digit string as accepted by Python's int() after the optional sign:
nonempty, ASCII digits with single underscores strictly between digits.
(Python additionally accepts non-ASCII decimal digits and surrounding
whitespace; neither can occur in a whitespace-split token of ASCII output,
so the model covers ASCII digits.) -/
def pyIntDigits (s : List Char) : Bool :=
  !s.isEmpty &&
  s.all (fun c => c.isDigit || c == '_') &&
  (s.headD ' ').isDigit &&
  (s.getLast?.getD ' ').isDigit &&
  noDoubleUnderscore s

/-- Numeric value of a digit character. -/
def digitVal (c : Char) : Nat := c.toNat - 48

/-- Value of a digit-and-underscore string (underscores skipped). -/
def digitsVal (s : List Char) : Nat :=
  (s.filter (fun c => c != '_')).foldl (fun acc c => 10 * acc + digitVal c) 0

/-- Python int(s) on a whitespace-free token: optional sign followed by a
valid digit string; `none` models the ValueError. -/
def pyInt? (s : List Char) : Option Int :=
  match s with
  | [] => none
  | c :: rest =>
    if c = '+' then (if pyIntDigits rest then some (digitsVal rest) else none)
    else if c = '-' then (if pyIntDigits rest then some (-(digitsVal rest : Int)) else none)
    else if pyIntDigits (c :: rest) then some ((digitsVal (c :: rest) : Int)) else none

/-- Python int(s) on an arbitrary string: int() ignores surrounding
whitespace, so the string is stripped first, then parsed as an optional
sign followed by a valid digit string. -/
def pyIntStr? (s : List Char) : Option Int := pyInt? (pyStrip s)

/-- The decimal digit character for d < 10 (d ≥ 9 maps to the last digit). -/
def digitChar : Nat → Char
  | 0 => '0' | 1 => '1' | 2 => '2' | 3 => '3' | 4 => '4'
  | 5 => '5' | 6 => '6' | 7 => '7' | 8 => '8' | _ => '9'

/-- Fuel-driven decimal rendering worker (structural, so it evaluates in the
kernel); fuel larger than n always suffices. -/
def natToCharsAux : Nat → Nat → List Char
  | 0, _ => []
  | fuel + 1, n =>
    if n < 10 then [digitChar n]
    else natToCharsAux fuel (n / 10) ++ [digitChar (n % 10)]

/-- Python str(n) for a natural number. -/
def natToChars (n : Nat) : List Char := natToCharsAux (n + 1) n

/-- Python str(n) for an integer. -/
def intToChars (n : Int) : List Char :=
  if n < 0 then '-' :: natToChars n.natAbs else natToChars n.toNat

/-- Does the token start with the given character (Python startswith on a
nonempty pattern of length one)? -/
def startsWithChar (c : Char) : List Char → Bool
  | [] => false
  | x :: _ => x == c

/-- Does the string contain the two-character sequence "->"? -/
def containsArrow : List Char → Bool
  | [] => false
  | '-' :: '>' :: _ => true
  | _ :: rest => containsArrow rest

/-- Python s.split("->", 1)[0]: the prefix before the first "->". -/
def beforeArrow : List Char → List Char
  | [] => []
  | '-' :: '>' :: _ => []
  | c :: rest => c :: beforeArrow rest

/-- Python s.rsplit(":", 1) on a string containing a colon: everything
before the last colon, and everything after it. -/
def rsplitColon (s : List Char) : List Char × List Char :=
  (((s.reverse.dropWhile (fun c => c != ':')).drop 1).reverse,
   (s.reverse.takeWhile (fun c => c != ':')).reverse)

/-- The host/port computation of `_split_host_port` before the final
`host or address` fallback (port_info.py lines 57-70). -/
def splitHostPortCore (address : List Char) : List Char × List Char :=
  let host := if containsArrow address then beforeArrow address else address
  if startsWithChar '[' host && host.contains ']' then
    let bracketed := (host.drop 1).takeWhile (fun c => c != ']')
    let tail := (host.dropWhile (fun c => c != ']')).drop 1
    (bracketed, if startsWithChar ':' tail then tail.drop 1 else [])
  else if host.contains ':' then rsplitColon host
  else (host, [])

/-- `_split_host_port` (port_info.py lines 37-71): empty input returns
immediately; otherwise the core computation with the empty-host fallback to
the original address string. -/
def splitHostPort (address : List Char) : List Char × List Char :=
  if address = [] then (address, [])
  else
    let hp := splitHostPortCore address
    (if hp.1 = [] then address else hp.1, hp.2)

/-- Modelled from the spec's host/port extraction bullets (section 4.2 step
6): arrow-trim, bracket rule, last-colon split, whole-string fallback, and
the empty-host fallback to the original untrimmed address. -/
def specHostPortExtract (address : List Char) : List Char × List Char :=
  let trimmed := if containsArrow address then beforeArrow address else address
  let hp :=
    if startsWithChar '[' trimmed && trimmed.contains ']' then
      let bracketed := (trimmed.drop 1).takeWhile (fun c => c != ']')
      let tail := (trimmed.dropWhile (fun c => c != ']')).drop 1
      (bracketed, if startsWithChar ':' tail then tail.drop 1 else [])
    else if trimmed.contains ':' then rsplitColon trimmed
    else (trimmed, [])
  (if hp.1 = [] then address else hp.1, hp.2)

/-- Result of `_get_process_details(pid)`: ppid, full command path, cwd
(port_info.py lines 277-294).  The lookups call external utilities, so the
resolver enters the parser as an oracle parameter. -/
structure ProcDetails where
  ppid : Option Int
  command_path : List Char
  cwd : List Char
deriving DecidableEq

/-- One parsed lsof row (the dictionary built in `_parse_lsof_output`,
port_info.py lines 123-144). -/
structure Entry where
  command : List Char
  pid : Int
  ppid : Option Int
  user : List Char
  fd : List Char
  type : List Char
  protocol : List Char
  address : List Char
  host : List Char
  port : List Char
  state : List Char
  full_command : List Char
  cwd : List Char
  device : List Char
  size_off : List Char
  node : List Char
deriving DecidableEq

/-- The trailing-state strip of `_parse_lsof_output` (lines 108-110): if the
last name token is parenthesized it becomes the connection state and is
removed from the address tokens. -/
def stripState (name_parts : List (List Char)) : List Char × List (List Char) :=
  match name_parts.getLast? with
  | some last =>
    if startsWithChar '(' last && (last.getLast?.getD ' ') == ')' then
      ((last.drop 1).dropLast, name_parts.dropLast)
    else ([], name_parts)
  | none => ([], name_parts)

/-- The entry built for a row from its nine-or-more tokens (port_info.py
lines 103-144): first eight tokens positional, the rest is the name field;
`process_details.get("cwd") or ""` is the identity on strings, so cwd is
taken directly. -/
def mkEntry (details : Int → ProcDetails) (command : List Char) (pid : Int)
    (user fd type_ device size_off node : List Char)
    (name_parts : List (List Char)) : Entry :=
  let sp := stripState name_parts
  let address := joinSpace sp.2
  let hp := splitHostPort address
  let pd := details pid
  { command := command, pid := pid, ppid := pd.ppid, user := user, fd := fd,
    type := type_, protocol := node, address := address, host := hp.1,
    port := hp.2, state := sp.1,
    full_command := if pd.command_path = [] then command else pd.command_path,
    cwd := pd.cwd, device := device, size_off := size_off, node := node }

/-- The per-line body of `_parse_lsof_output`'s loop (lines 98-144): rows
with fewer than nine whitespace tokens are skipped, as are rows whose pid
token is not an int() literal; every other row yields an entry. -/
def parseRow (details : Int → ProcDetails) (line : List Char) : Option Entry :=
  match pyWords line with
  | command :: pid_str :: user :: fd :: type_ :: device :: size_off :: node :: np0 :: nps =>
    match pyInt? pid_str with
    | some pid => some (mkEntry details command pid user fd type_ device size_off node (np0 :: nps))
    | none => none
  | _ => none

/-- The stripped non-blank lines of the raw output (line 87). -/
def nonblankLines (output : List Char) : List (List Char) :=
  ((splitLines output).map pyStrip).filter (fun l => !l.isEmpty)

/-- `_parse_lsof_output` (port_info.py lines 74-146): at most one line means
no data rows; otherwise the first non-blank line is the header and every
later line that parses contributes one entry, in input order. -/
def parseLsofOutput (details : Int → ProcDetails) (output : List Char) : List Entry :=
  let lines := nonblankLines output
  if lines.length ≤ 1 then []
  else (lines.drop 1).filterMap (parseRow details)

/-- Result of one subprocess.run of the socket-listing utility. -/
structure RunResult where
  returncode : Int
  out : List Char
  err : List Char

/-- Outcome of `collect_ports`; the source raises PortFetchError in both
failure cases, distinguished by the message carried. -/
inductive CollectOutcome
  | ok (entries : List Entry)
  | fetchError (msg : List Char)
deriving DecidableEq

/-- Message of the PortFetchError raised by `_get_lsof_path` (line 33). -/
def lsofNotFoundMsg : List Char :=
  String.toList "The 'lsof' command is required but was not found on this system."

/-- Generic message used when the utility's stderr strips to empty (line 175). -/
def genericCollectMsg : List Char :=
  String.toList "Failed to collect port information."

/-- `collect_ports` (port_info.py lines 149-176) over an oracle `run` for the
single subprocess invocation: missing utility fails with the not-found
message; a non-zero exit fails with the stripped stderr, or the generic
message when that is empty; success parses stdout.  Exactly one `run`
application occurs, mirroring the single spawned process. -/
def collect_ports (details : Int → ProcDetails) (lsofPath : Option (List Char))
    (run : List (List Char) → RunResult) : CollectOutcome :=
  match lsofPath with
  | none => CollectOutcome.fetchError lsofNotFoundMsg
  | some lsof =>
    let r := run [lsof, String.toList "-nP", String.toList "-iTCP", String.toList "-iUDP"]
    if r.returncode = 0 then CollectOutcome.ok (parseLsofOutput details r.out)
    else
      CollectOutcome.fetchError
        (if (pyStrip r.err).isEmpty then genericCollectMsg else pyStrip r.err)

/-- Outcome of the single os.kill attempt (the exception Python raises). -/
inductive KillOutcome
  | ok
  | processLookupError
  | permissionError
  | otherError (msg : List Char)
deriving DecidableEq

/-- Caller-visible result of `kill_process`: success, or an HTTP abort with
status and description. -/
inductive KillResponse
  | success
  | httpAbort (status : Nat) (description : List Char)
deriving DecidableEq

/-- Description of the 404 abort (port_info.py line 315). -/
def killNotFoundMsg (pid : Int) : List Char :=
  String.toList "Process " ++ intToChars pid ++ String.toList " was not found."

/-- Description of the 403 abort (line 317). -/
def killPermissionMsg (pid : Int) : List Char :=
  String.toList "Insufficient permissions to signal process " ++ intToChars pid ++ String.toList "."

/-- Description of the 500 abort (line 319), carrying the exception text. -/
def killFailedMsg (pid : Int) (msg : List Char) : List Char :=
  String.toList "Failed to signal process " ++ intToChars pid ++ String.toList ": " ++ msg

/-- `kill_process` (port_info.py lines 297-319) over an oracle `deliver` for
the single os.kill call; the second component counts delivery attempts
(always exactly one — no retry, no backoff). -/
def kill_process (deliver : Int → Int → KillOutcome) (pid sig : Int) :
    KillResponse × Nat :=
  (match deliver pid sig with
   | KillOutcome.ok => KillResponse.success
   | KillOutcome.processLookupError => KillResponse.httpAbort 404 (killNotFoundMsg pid)
   | KillOutcome.permissionError => KillResponse.httpAbort 403 (killPermissionMsg pid)
   | KillOutcome.otherError msg => KillResponse.httpAbort 500 (killFailedMsg pid msg),
   1)

/-- The while loop of `find_available_port` (port_resolution.py lines
31-42) over a bind oracle `free`: the fuel is the number of failed attempts
still allowed; the second component counts bind attempts made. -/
def probeLoop (free : Nat → Bool) : Nat → Nat → Option Nat × Nat
  | _, 0 => (none, 0)
  | candidate, fuel + 1 =>
    if free candidate then (some candidate, 1)
    else
      let r := probeLoop free (candidate + 1) fuel
      (r.1, r.2 + 1)

/-- `find_available_port` (port_resolution.py lines 14-42): `none` models
the RuntimeError raised after max_attempts failed binds. -/
def findAvailablePort (free : Nat → Bool) (preferred : Nat) (maxAttempts : Nat) : Option Nat :=
  (probeLoop free preferred maxAttempts).1

/-- The probe-then-persist tail of `resolve_run_port` (lines 68-72): on
success the chosen port is written to the environment variable; on failure
the RuntimeError propagates and the variable keeps the value `env0` it had
at that point.  (The informational print on line 71 has no modelled effect.)
Result: (returned port, final env value, bind attempts made). -/
def probeAndStore (free : Nat → Bool) (preferred maxAttempts : Nat)
    (env0 : Option (List Char)) : Option Int × Option (List Char) × Nat :=
  let r := probeLoop free preferred maxAttempts
  match r.1 with
  | some p => (some (p : Int), some (natToChars p), r.2)
  | none => (none, env0, r.2)

/-- `resolve_run_port` (port_resolution.py lines 45-72): the environment
variable PORTER_ASSIGNED_PORT is the `env` parameter (`none` = unset).  A
truthy (non-empty) value that int()-parses — int() on the raw value, which
ignores surrounding whitespace — is returned at once with zero bind
attempts; a truthy non-parsing value is popped before probing; a falsy
value (empty string) skips straight to probing without being popped. -/
def resolveRunPort (free : Nat → Bool) (preferred maxAttempts : Nat)
    (env : Option (List Char)) : Option Int × Option (List Char) × Nat :=
  match env with
  | some s =>
    if s.isEmpty then probeAndStore free preferred maxAttempts env
    else
      match pyIntStr? s with
      | some n => (some n, some s, 0)
      | none => probeAndStore free preferred maxAttempts none
  | none => probeAndStore free preferred maxAttempts none

/-- A trivial process-detail oracle used for concrete evaluations. -/
def detailsNone : Int → ProcDetails := fun _ => ⟨none, [], []⟩

/-- Any fuel above n renders n the same way. -/
theorem natToCharsAux_fuel_eq (n : Nat) : ∀ f, n < f → natToCharsAux f n = natToChars n := by
  induction n using Nat.strong_induction_on with
  | _ n ih =>
    intro f hf
    obtain ⟨g, rfl⟩ : ∃ g, f = g + 1 := ⟨f - 1, by omega⟩
    by_cases h10 : n < 10
    · simp [natToChars, natToCharsAux, h10]
    · have hd : n / 10 < n := Nat.div_lt_self (by omega) (by omega)
      have h1 : natToCharsAux g (n / 10) = natToChars (n / 10) := ih _ hd _ (by omega)
      have h2 : natToCharsAux n (n / 10) = natToChars (n / 10) := ih _ hd _ (by omega)
      simp [natToChars, natToCharsAux, h10, h1, h2]

/-- The usual unfolding of decimal rendering. -/
theorem natToChars_eq (n : Nat) :
    natToChars n = if n < 10 then [digitChar n] else natToChars (n / 10) ++ [digitChar (n % 10)] := by
  by_cases h10 : n < 10
  · simp [natToChars, natToCharsAux, h10]
  · have hd : n / 10 < n := Nat.div_lt_self (by omega) (by omega)
    have h1 : natToCharsAux n (n / 10) = natToChars (n / 10) :=
      natToCharsAux_fuel_eq (n / 10) n (by omega)
    simp [natToChars, natToCharsAux, h10, h1]

theorem digitChar_isDigit (d : Nat) : (digitChar d).isDigit = true := by
  rcases d with _|_|_|_|_|_|_|_|_|d <;> rfl

theorem digitChar_ne_underscore (d : Nat) : (digitChar d == '_') = false := by
  rcases d with _|_|_|_|_|_|_|_|_|d <;> rfl

theorem digitVal_digitChar (d : Nat) (h : d < 10) : digitVal (digitChar d) = d := by
  interval_cases d <;> rfl

theorem natToChars_ne_nil (n : Nat) : natToChars n ≠ [] := by
  rw [natToChars_eq]
  by_cases h10 : n < 10 <;> simp [h10]

theorem natToChars_all_digit (n : Nat) : ∀ c ∈ natToChars n, c.isDigit = true := by
  induction n using Nat.strong_induction_on with
  | _ n ih =>
    rw [natToChars_eq]
    by_cases h10 : n < 10
    · simp [h10, digitChar_isDigit]
    · have hd : n / 10 < n := Nat.div_lt_self (by omega) (by omega)
      rw [if_neg h10]
      intro c hc
      rcases List.mem_append.mp hc with h | h
      · exact ih _ hd c h
      · simp only [List.mem_singleton] at h
        subst h
        exact digitChar_isDigit _

theorem digitsVal_append_digit (s : List Char) (c : Char) (hc : (c == '_') = false) :
    digitsVal (s ++ [c]) = 10 * digitsVal s + digitVal c := by
  unfold digitsVal
  rw [List.filter_append, List.foldl_append]
  have hcc : (c != '_') = true := by simp [bne, hc]
  simp [List.filter, hcc]

theorem digitsVal_natToChars (n : Nat) : digitsVal (natToChars n) = n := by
  induction n using Nat.strong_induction_on with
  | _ n ih =>
    rw [natToChars_eq]
    by_cases h10 : n < 10
    · rw [if_pos h10]
      show digitsVal ([] ++ [digitChar n]) = n
      rw [digitsVal_append_digit _ _ (digitChar_ne_underscore n)]
      simp [digitsVal, digitVal_digitChar n h10]
    · have hd : n / 10 < n := Nat.div_lt_self (by omega) (by omega)
      rw [if_neg h10, digitsVal_append_digit _ _ (digitChar_ne_underscore _), ih _ hd,
        digitVal_digitChar _ (Nat.mod_lt _ (by omega))]
      omega

theorem isDigit_ne_underscore {c : Char} (h : c.isDigit = true) : (c == '_') = false := by
  cases hbe : (c == '_')
  · rfl
  · rw [beq_iff_eq] at hbe
    subst hbe
    exact absurd h (by decide)

theorem noDoubleUnderscore_of_no_underscore (l : List Char) :
    (∀ c ∈ l, (c == '_') = false) → noDoubleUnderscore l = true := by
  induction l with
  | nil => intro _; rfl
  | cons c rest ih =>
    intro h
    cases rest with
    | nil => rfl
    | cons d rest2 =>
      have hc := h c (by simp)
      have hrest : ∀ x ∈ d :: rest2, (x == '_') = false := fun x hx => h x (by simp [hx])
      simp [noDoubleUnderscore, hc, ih hrest]

theorem pyIntDigits_natToChars (n : Nat) : pyIntDigits (natToChars n) = true := by
  have hall := natToChars_all_digit n
  obtain ⟨c, cs, hcons⟩ := List.exists_cons_of_ne_nil (natToChars_ne_nil n)
  rw [hcons] at hall ⊢
  have hhead : c.isDigit = true := hall c (by simp)
  have hlast : ((c :: cs).getLast?.getD ' ').isDigit = true := by
    rw [List.getLast?_eq_getLast _ (by simp)]
    exact hall _ (List.getLast_mem _)
  have hallb : (c :: cs).all (fun x => x.isDigit || x == '_') = true := by
    rw [List.all_eq_true]
    intro x hx
    simp [hall x hx]
  have hnd : noDoubleUnderscore (c :: cs) = true :=
    noDoubleUnderscore_of_no_underscore _ (fun x hx => isDigit_ne_underscore (hall x hx))
  simp [pyIntDigits, hhead, hlast, hallb, hnd]

theorem pyInt?_natToChars (n : Nat) : pyInt? (natToChars n) = some (n : Int) := by
  obtain ⟨c, cs, hcons⟩ := List.exists_cons_of_ne_nil (natToChars_ne_nil n)
  have hd : c.isDigit = true := natToChars_all_digit n c (by rw [hcons]; simp)
  have h1 : ¬ c = '+' := by rintro rfl; exact absurd hd (by decide)
  have h2 : ¬ c = '-' := by rintro rfl; exact absurd hd (by decide)
  have hpd := pyIntDigits_natToChars n
  have hv := digitsVal_natToChars n
  rw [hcons] at hpd hv ⊢
  simp [pyInt?, h1, h2, hpd, hv]

/-- C1: `_split_host_port` follows the spec's extraction algorithm
(arrow-trim, bracket rule, last-colon split, whole-string case, empty-host
fallback to the original address), and agrees with the spec's concrete
examples for "127.0.0.1:8080", "[::1]:8080", "[::1]",
"127.0.0.1:8080->192.168.1.1:443", "localhost" and "". -/
theorem splitHostPort_follows_spec :
    (∀ a : List Char, splitHostPort a = specHostPortExtract a) ∧
    splitHostPort (String.toList "127.0.0.1:8080") = (String.toList "127.0.0.1", String.toList "8080") ∧
    splitHostPort (String.toList "[::1]:8080") = (String.toList "::1", String.toList "8080") ∧
    splitHostPort (String.toList "[::1]") = (String.toList "::1", String.toList "") ∧
    splitHostPort (String.toList "127.0.0.1:8080->192.168.1.1:443") =
      (String.toList "127.0.0.1", String.toList "8080") ∧
    splitHostPort (String.toList "localhost") = (String.toList "localhost", String.toList "") ∧
    splitHostPort (String.toList "") = (String.toList "", String.toList "") := by
  refine ⟨fun a => ?_, by decide, by decide, by decide, by decide, by decide, by decide⟩
  by_cases ha : a = []
  · subst ha; rfl
  · simp only [splitHostPort, if_neg ha]
    rfl

/-- C10: for every non-empty address the extracted host is non-empty, and
whenever the core rules compute an empty host the whole original address is
returned as host with the extracted port kept. -/
theorem splitHostPort_host_nonempty (a : List Char) (ha : a ≠ []) :
    (splitHostPort a).1 ≠ [] ∧
    ((splitHostPortCore a).1 = [] → splitHostPort a = (a, (splitHostPortCore a).2)) := by
  simp only [splitHostPort, if_neg ha]
  constructor
  · by_cases hc : (splitHostPortCore a).1 = []
    · simpa [hc] using ha
    · simp [hc]
  · intro hc
    simp [hc]

/-- Witness for C10 at the concrete inputs ":8080" and "[]": the computed
host is empty, so the original address comes back as host with the port
kept. -/
theorem splitHostPort_host_nonempty_witness :
    (splitHostPort (String.toList ":8080")).1 ≠ [] ∧
    splitHostPort (String.toList ":8080") = (String.toList ":8080", String.toList "8080") ∧
    splitHostPort (String.toList "[]") = (String.toList "[]", String.toList "") := by
  refine ⟨(splitHostPort_host_nonempty _ (by decide)).1, ?_, ?_⟩
  · have h := (splitHostPort_host_nonempty (String.toList ":8080") (by decide)).2 (by decide)
    exact h.trans (by decide)
  · have h := (splitHostPort_host_nonempty (String.toList "[]") (by decide)).2 (by decide)
    exact h.trans (by decide)

/-- The probe loop returns the first free candidate when every earlier
candidate is occupied. -/
theorem probeLoop_first_free (free : Nat → Bool) :
    ∀ (k maxA preferred : Nat), k < maxA → free (preferred + k) = true →
    (∀ j, j < k → free (preferred + j) = false) →
    (probeLoop free preferred maxA).1 = some (preferred + k) := by
  intro k
  induction k with
  | zero =>
    intro maxA preferred hk hf _
    obtain ⟨m, rfl⟩ : ∃ m, maxA = m + 1 := ⟨maxA - 1, by omega⟩
    rw [Nat.add_zero] at hf ⊢
    simp [probeLoop, hf]
  | succ k ih =>
    intro maxA preferred hk hf hocc
    obtain ⟨m, rfl⟩ : ∃ m, maxA = m + 1 := ⟨maxA - 1, by omega⟩
    have h0 : free preferred = false := by simpa using hocc 0 (by omega)
    have hshift : preferred + 1 + k = preferred + (k + 1) := by omega
    simp only [probeLoop, h0, Bool.false_eq_true, if_false]
    show (probeLoop free (preferred + 1) m).1 = some (preferred + (k + 1))
    rw [← hshift]
    exact ih m (preferred + 1) (by omega) (by rw [hshift]; exact hf)
      (fun j hj => by
        have hs : preferred + 1 + j = preferred + (j + 1) := by omega
        rw [hs]
        exact hocc (j + 1) (by omega))

/-- The probe loop exhausts its fuel when every candidate is occupied. -/
theorem probeLoop_all_occupied (free : Nat → Bool) :
    ∀ (maxA preferred : Nat), (∀ j, j < maxA → free (preferred + j) = false) →
    (probeLoop free preferred maxA).1 = none := by
  intro maxA
  induction maxA with
  | zero => intro preferred _; rfl
  | succ m ih =>
    intro preferred hocc
    have h0 : free preferred = false := by simpa using hocc 0 (by omega)
    simp only [probeLoop, h0, Bool.false_eq_true, if_false]
    show (probeLoop free (preferred + 1) m).1 = none
    exact ih (preferred + 1) (fun j hj => by
      have hs : preferred + 1 + j = preferred + (j + 1) := by omega
      rw [hs]
      exact hocc (j + 1) (by omega))

/-- C4: `find_available_port` probes sequentially from the preferred port,
returns the first candidate that binds, and fails (RuntimeError, modelled
as `none`) once the attempt ceiling of failed binds is exhausted. -/
theorem findAvailablePort_spec (free : Nat → Bool) (preferred maxAttempts : Nat) :
    (∀ k, k < maxAttempts → free (preferred + k) = true →
       (∀ j, j < k → free (preferred + j) = false) →
       findAvailablePort free preferred maxAttempts = some (preferred + k)) ∧
    ((∀ j, j < maxAttempts → free (preferred + j) = false) →
       findAvailablePort free preferred maxAttempts = none) :=
  ⟨fun k hk hf hocc => probeLoop_first_free free k maxAttempts preferred hk hf hocc,
   fun hocc => probeLoop_all_occupied free maxAttempts preferred hocc⟩

/-- Witness for C4 with the default ceiling of 50: ports P..P+2 occupied and
P+3 free yields P+3; all candidates occupied yields the failure. -/
theorem findAvailablePort_spec_witness :
    findAvailablePort (fun n => decide (n = 1003)) 1000 50 = some 1003 ∧
    findAvailablePort (fun _ => false) 1000 50 = none := by
  constructor
  · exact (findAvailablePort_spec (fun n => decide (n = 1003)) 1000 50).1 3 (by omega)
      (by decide) (fun j hj => by interval_cases j <;> decide)
  · exact (findAvailablePort_spec (fun _ => false) 1000 50).2 (fun j _ => rfl)

/-- The parser is the filterMap of the per-row parse over the lines after
the header; the header-guard branch agrees with this shape. -/
theorem parseLsofOutput_eq_filterMap (details : Int → ProcDetails) (output : List Char) :
    parseLsofOutput details output =
      ((nonblankLines output).drop 1).filterMap (parseRow details) := by
  unfold parseLsofOutput
  by_cases hl : (nonblankLines output).length ≤ 1
  · rw [if_pos hl, List.drop_eq_nil_of_le hl, List.filterMap_nil]
  · rw [if_neg hl]

/-- C7: the parser never fails — empty or header-only input (at most one
non-blank line) yields no records, and in general the output is exactly the
in-order filterMap of the per-row parse over the lines after the discarded
header: malformed rows vanish silently, surviving rows keep input order,
nothing is deduplicated. -/
theorem parseLsofOutput_total_ordered (details : Int → ProcDetails) (output : List Char) :
    ((nonblankLines output).length ≤ 1 → parseLsofOutput details output = []) ∧
    parseLsofOutput details output =
      ((nonblankLines output).drop 1).filterMap (parseRow details) :=
  ⟨fun h => by unfold parseLsofOutput; rw [if_pos h],
   parseLsofOutput_eq_filterMap details output⟩

/-- Witness for C7: a header-only input parses to nothing, and a malformed
row between two well-formed rows is dropped while its siblings survive in
input order. -/
theorem parseLsofOutput_total_ordered_witness :
    parseLsofOutput detailsNone
      (String.toList "COMMAND PID USER FD TYPE DEVICE SIZE/OFF NODE NAME") = [] ∧
    (parseLsofOutput detailsNone (String.toList
       "HDR\na 10 u f t d s TCP x:1\nbad row\nb 20 u f t d s TCP y:2")).map Entry.pid =
      [10, 20] :=
  ⟨(parseLsofOutput_total_ordered detailsNone _).1 (by decide), by decide⟩

/-- A row is dropped exactly when it has fewer than nine whitespace tokens
or its pid token is not an int() literal. -/
theorem parseRow_eq_none_iff (details : Int → ProcDetails) (line : List Char) :
    parseRow details line = none ↔
      (pyWords line).length < 9 ∨ pyInt? ((pyWords line).getD 1 []) = none := by
  unfold parseRow
  generalize pyWords line = parts
  rcases parts with _ | ⟨c, _ | ⟨p, _ | ⟨u, _ | ⟨f, _ | ⟨t, _ | ⟨d, _ | ⟨s, _ | ⟨n, _ | ⟨a, as⟩⟩⟩⟩⟩⟩⟩⟩⟩
  · simp
  · simp
  · simp [List.getD]
  · simp [List.getD]
  · simp [List.getD]
  · simp [List.getD]
  · simp [List.getD]
  · simp [List.getD]
  · simp [List.getD]
  · cases hp : pyInt? p
    · simp [hp, List.getD]
    · simp [hp, List.getD]

/-- C2 (amended): a row is dropped on token-count grounds exactly when it
has fewer than nine whitespace tokens; every line with at least nine tokens
whose pid token parses as an integer yields a record with the first eight
tokens mapped positionally and the remaining tokens (at least one) forming
the address field. -/
theorem parseRow_token_threshold (details : Int → ProcDetails) (line : List Char) :
    (parseRow details line = none ↔
       (pyWords line).length < 9 ∨ pyInt? ((pyWords line).getD 1 []) = none) ∧
    (∀ command pid_str user fd type_ device size_off node np0 nps pid,
       pyWords line =
         command :: pid_str :: user :: fd :: type_ :: device :: size_off :: node :: np0 :: nps →
       pyInt? pid_str = some pid →
       parseRow details line =
         some (mkEntry details command pid user fd type_ device size_off node (np0 :: nps))) := by
  refine ⟨parseRow_eq_none_iff details line, ?_⟩
  intro c p u f t d s n a as pid hw hp
  unfold parseRow
  rw [hw]
  simp [hp]

/-- Counterexample to C2 as stated: a line with exactly eight whitespace
tokens and an integer pid token is nevertheless dropped (the source
requires at least nine tokens, `len(parts) < 9`), though the claim says any
line with at least eight tokens and a parsing pid yields a record. -/
theorem parse_eight_token_row_dropped :
    (pyWords (String.toList "python3 1234 user 3u IPv4 dev 0t0 TCP")).length = 8 ∧
    pyInt? (String.toList "1234") = some 1234 ∧
    parseLsofOutput detailsNone
      (String.toList "HDR\npython3 1234 user 3u IPv4 dev 0t0 TCP") = [] :=
  ⟨by decide, by decide, by decide⟩

/-- Witness for C2's amended theorem on a concrete well-formed row. -/
theorem parseRow_token_threshold_witness :
    parseRow detailsNone
      (String.toList "node 5678 user 4u IPv6 0xabc 0t0 TCP [::1]:3000 (LISTEN)") =
      some (mkEntry detailsNone (String.toList "node") 5678 (String.toList "user")
        (String.toList "4u") (String.toList "IPv6") (String.toList "0xabc")
        (String.toList "0t0") (String.toList "TCP")
        [String.toList "[::1]:3000", String.toList "(LISTEN)"]) :=
  (parseRow_token_threshold detailsNone _).2 (String.toList "node") (String.toList "5678")
    (String.toList "user") (String.toList "4u") (String.toList "IPv6") (String.toList "0xabc")
    (String.toList "0t0") (String.toList "TCP") (String.toList "[::1]:3000")
    [String.toList "(LISTEN)"] 5678 (by decide) (by decide)

/-- Every emitted entry's pid is exactly what int() parsed from the row's
second token. -/
theorem parseRow_pid (details : Int → ProcDetails) (line : List Char) (e : Entry)
    (h : parseRow details line = some e) :
    pyInt? ((pyWords line).getD 1 []) = some e.pid := by
  unfold parseRow at h
  generalize hw : pyWords line = parts at h ⊢
  rcases parts with _ | ⟨c, _ | ⟨p, _ | ⟨u, _ | ⟨f, _ | ⟨t, _ | ⟨d, _ | ⟨s, _ | ⟨n, _ | ⟨a, as⟩⟩⟩⟩⟩⟩⟩⟩⟩
  · exact absurd h (by simp)
  · exact absurd h (by simp)
  · exact absurd h (by simp)
  · exact absurd h (by simp)
  · exact absurd h (by simp)
  · exact absurd h (by simp)
  · exact absurd h (by simp)
  · exact absurd h (by simp)
  · exact absurd h (by simp)
  · simp only [] at h
    cases hp : pyInt? p with
    | none => rw [hp] at h; exact absurd h (by simp)
    | some pid =>
      rw [hp] at h
      simp only [Option.some.injEq] at h
      subst h
      simpa [List.getD] using hp

/-- C3 (amended): every record the parser emits has a pid that is a valid
integer — exactly the int() value of its row's pid token — and a row whose
pid token does not parse as an integer is dropped.  (The pid need not be
positive: a token "0" or "-5" parses and is emitted as is.) -/
theorem parse_pid_integer (details : Int → ProcDetails) (output : List Char) :
    (∀ e ∈ parseLsofOutput details output,
       ∃ line ∈ (nonblankLines output).drop 1,
         parseRow details line = some e ∧
         pyInt? ((pyWords line).getD 1 []) = some e.pid) ∧
    (∀ line, pyInt? ((pyWords line).getD 1 []) = none →
       parseRow details line = none) := by
  constructor
  · intro e he
    rw [parseLsofOutput_eq_filterMap] at he
    obtain ⟨line, hline, hp⟩ := List.mem_filterMap.mp he
    exact ⟨line, hline, hp, parseRow_pid details line e hp⟩
  · intro line hnone
    exact (parseRow_eq_none_iff details line).mpr (Or.inr hnone)

/-- Counterexample to C3 as stated: the parser emits a record whose pid is
0, which is not a positive integer — only rows whose pid token fails int()
are dropped. -/
theorem parse_emits_nonpositive_pid :
    (parseLsofOutput detailsNone
       (String.toList "HDR\npython3 0 user 3u IPv4 dev 0t0 TCP *:8080")).map Entry.pid = [0] ∧
    ¬ (0 : Int) < 0 :=
  ⟨by decide, by omega⟩

/-- A concrete parse used to witness C3's amended theorem. -/
def c3output : List Char :=
  String.toList "HDR\npython3 1234 user 3u IPv4 dev 0t0 TCP *:8080"

/-- The single entry of `c3output`. -/
def c3entry : Entry :=
  mkEntry detailsNone (String.toList "python3") 1234 (String.toList "user")
    (String.toList "3u") (String.toList "IPv4") (String.toList "dev")
    (String.toList "0t0") (String.toList "TCP") [String.toList "*:8080"]

/-- Witness for C3's amended theorem: a concrete emitted entry traces back
to its line and parsed pid, and a row with a non-numeric pid is dropped. -/
theorem parse_pid_integer_witness :
    (∃ line ∈ (nonblankLines c3output).drop 1,
        parseRow detailsNone line = some c3entry ∧
        pyInt? ((pyWords line).getD 1 []) = some c3entry.pid) ∧
    parseRow detailsNone
      (String.toList "python3 INVALID user 3u IPv4 dev 0t0 TCP *:8080") = none :=
  ⟨(parse_pid_integer detailsNone c3output).1 c3entry (by decide),
   (parse_pid_integer detailsNone []).2 _ (by decide)⟩

/-- A digit character differs from any non-digit character. -/
theorem beq_false_of_isDigit {c : Char} (h : c.isDigit = true) (d : Char)
    (hd : d.isDigit = false) : (c == d) = false := by
  cases hb : c == d
  · rfl
  · rw [beq_iff_eq] at hb
    subst hb
    rw [h] at hd
    exact absurd hd (by simp)

/-- Digit characters are not Python whitespace. -/
theorem isDigit_not_pySpace {c : Char} (h : c.isDigit = true) : isPySpace c = false := by
  simp [isPySpace, beq_false_of_isDigit h ' ' (by decide),
    beq_false_of_isDigit h '\t' (by decide), beq_false_of_isDigit h '\n' (by decide),
    beq_false_of_isDigit h '\r' (by decide), beq_false_of_isDigit h '\x0b' (by decide),
    beq_false_of_isDigit h '\x0c' (by decide)]

/-- Dropping leading whitespace from a whitespace-free string is the
identity. -/
theorem dropWhile_pySpace_eq_self (l : List Char)
    (h : ∀ c ∈ l, isPySpace c = false) : l.dropWhile isPySpace = l := by
  cases l with
  | nil => rfl
  | cons c cs =>
    rw [List.dropWhile_cons]
    simp [h c (by simp)]

/-- Stripping a whitespace-free string is the identity. -/
theorem pyStrip_of_no_space (l : List Char)
    (h : ∀ c ∈ l, isPySpace c = false) : pyStrip l = l := by
  unfold pyStrip
  rw [dropWhile_pySpace_eq_self l h,
    dropWhile_pySpace_eq_self l.reverse (fun c hc => h c (List.mem_reverse.mp hc))]
  exact List.reverse_reverse l

/-- int() applied to str(n) gives back n, also through the
whitespace-stripping entry point. -/
theorem pyIntStr?_natToChars (n : Nat) : pyIntStr? (natToChars n) = some (n : Int) := by
  unfold pyIntStr?
  rw [pyStrip_of_no_space _ (fun c hc => isDigit_not_pySpace (natToChars_all_digit n c hc))]
  exact pyInt?_natToChars n

/-- A successful probe-and-store returns a probed natural port and persists
its decimal rendering. -/
theorem probeAndStore_success (free : Nat → Bool) (pref maxA : Nat)
    (env0 env1 : Option (List Char)) (p : Int) (att : Nat)
    (h : probeAndStore free pref maxA env0 = (some p, env1, att)) :
    ∃ q : Nat, p = (q : Int) ∧ env1 = some (natToChars q) := by
  simp only [probeAndStore] at h
  cases hr : (probeLoop free pref maxA).1 with
  | none => rw [hr] at h; simp at h
  | some q =>
    rw [hr] at h
    simp only [Prod.mk.injEq, Option.some.injEq] at h
    exact ⟨q, h.1.symm, h.2.1.symm⟩

/-- A second resolution that starts from a persisted decimal port value
returns it at once with no bind attempts. -/
theorem resolveRunPort_on_stored (free2 : Nat → Bool) (pref2 maxA2 : Nat) (q : Nat) :
    resolveRunPort free2 pref2 maxA2 (some (natToChars q)) =
      (some (q : Int), some (natToChars q), 0) := by
  have hne : (natToChars q).isEmpty = false := by
    cases hc : natToChars q with
    | nil => exact absurd hc (natToChars_ne_nil q)
    | cons c cs => rfl
  simp [resolveRunPort, hne, pyIntStr?_natToChars]

/-- C6: once a call to `resolve_run_port` succeeds, the chosen port is in
the persisted state, and any later call reading that state — whatever its
bind oracle, preferred port or attempt ceiling — returns the identical port
with zero additional bind attempts. -/
theorem resolveRunPort_idempotent (free free2 : Nat → Bool)
    (pref pref2 maxA maxA2 : Nat) (env0 env1 : Option (List Char))
    (p : Int) (att : Nat)
    (h : resolveRunPort free pref maxA env0 = (some p, env1, att)) :
    resolveRunPort free2 pref2 maxA2 env1 = (some p, env1, 0) := by
  match env0 with
  | none =>
    simp only [resolveRunPort] at h
    obtain ⟨q, rfl, rfl⟩ := probeAndStore_success free pref maxA none env1 p att h
    exact resolveRunPort_on_stored free2 pref2 maxA2 q
  | some s =>
    simp only [resolveRunPort] at h
    by_cases hs : s.isEmpty = true
    · rw [if_pos hs] at h
      obtain ⟨q, rfl, rfl⟩ := probeAndStore_success free pref maxA (some s) env1 p att h
      exact resolveRunPort_on_stored free2 pref2 maxA2 q
    · rw [if_neg hs] at h
      have hs2 : s.isEmpty = false := by simpa using hs
      cases hn : pyIntStr? s with
      | none =>
        rw [hn] at h
        obtain ⟨q, rfl, rfl⟩ := probeAndStore_success free pref maxA none env1 p att h
        exact resolveRunPort_on_stored free2 pref2 maxA2 q
      | some n =>
        rw [hn] at h
        simp only [Prod.mk.injEq, Option.some.injEq] at h
        obtain ⟨rfl, rfl, -⟩ := h
        simp [resolveRunPort, hs2, hn]

/-- Witness for C6: a first resolution probing from 1000 persists "1000";
a second call with a different oracle and preferred port returns 1000 with
zero bind attempts. -/
theorem resolveRunPort_idempotent_witness :
    resolveRunPort (fun _ => true) 1000 50 none =
      (some 1000, some (String.toList "1000"), 1) ∧
    resolveRunPort (fun _ => false) 2000 7 (some (String.toList "1000")) =
      (some 1000, some (String.toList "1000"), 0) :=
  ⟨by decide,
   resolveRunPort_idempotent (fun _ => true) (fun _ => false) 1000 2000 50 7
     none (some (String.toList "1000")) 1000 1 (by decide)⟩

/-- Counterexample to C5 as stated: the persisted value may be present and
non-numeric (the empty string — int("") raises) yet it is NOT discarded
from the persisted state: with every bind failing, the call ends with the
empty value still persisted. -/
theorem resolveRunPort_empty_value_kept :
    pyIntStr? ([] : List Char) = none ∧
    resolveRunPort (fun _ => false) 1000 50 (some []) = (none, some [], 50) :=
  ⟨rfl, by decide⟩

/-- C5 (amended): `resolve_run_port` consults the persisted value before
probing — a non-empty value that int()-parses (int() ignores surrounding
whitespace) is returned at once with zero bind attempts and kept; a
non-empty non-numeric value is discarded and the call proceeds exactly as
if nothing were persisted; an empty persisted value also sends the call to
the probe loop (same port outcome and same number of bind attempts as with
nothing persisted) but it is not removed: on success it is overwritten with
the chosen port, on failure it is still persisted. -/
theorem resolveRunPort_persisted_state (free : Nat → Bool) (pref maxA : Nat) :
    (∀ s n, s ≠ [] → pyIntStr? s = some n →
       resolveRunPort free pref maxA (some s) = (some n, some s, 0)) ∧
    (∀ s, s ≠ [] → pyIntStr? s = none →
       resolveRunPort free pref maxA (some s) = resolveRunPort free pref maxA none) ∧
    ((resolveRunPort free pref maxA (some [])).1 =
       (resolveRunPort free pref maxA none).1 ∧
     (resolveRunPort free pref maxA (some [])).2.2 =
       (resolveRunPort free pref maxA none).2.2 ∧
     (∀ p env1 att, resolveRunPort free pref maxA (some []) = (some p, env1, att) →
        ∃ q : Nat, p = (q : Int) ∧ env1 = some (natToChars q)) ∧
     (∀ env1 att, resolveRunPort free pref maxA (some []) = (none, env1, att) →
        env1 = some [])) := by
  have hred : resolveRunPort free pref maxA (some []) =
      probeAndStore free pref maxA (some []) := by
    simp [resolveRunPort]
  refine ⟨?_, ?_, ?_, ?_, ?_, ?_⟩
  · intro s n hs hn
    have hse : s.isEmpty = false := by
      cases s with
      | nil => exact absurd rfl hs
      | cons c cs => rfl
    simp [resolveRunPort, hse, hn]
  · intro s hs hn
    have hse : s.isEmpty = false := by
      cases s with
      | nil => exact absurd rfl hs
      | cons c cs => rfl
    simp [resolveRunPort, hse, hn]
  · cases hr : (probeLoop free pref maxA).1 <;>
      simp [resolveRunPort, probeAndStore, hr]
  · cases hr : (probeLoop free pref maxA).1 <;>
      simp [resolveRunPort, probeAndStore, hr]
  · intro p env1 att h
    rw [hred] at h
    exact probeAndStore_success free pref maxA (some []) env1 p att h
  · intro env1 att h
    rw [hred] at h
    simp only [probeAndStore] at h
    cases hr : (probeLoop free pref maxA).1 with
    | some q => rw [hr] at h; simp at h
    | none =>
      rw [hr] at h
      simp only [Prod.mk.injEq] at h
      exact h.2.1.symm

/-- Witness for C5's amended theorem: a persisted numeric value — even a
whitespace-padded one, which int() accepts — is returned with zero attempts
and kept; a persisted non-numeric value behaves as if nothing were
persisted. -/
theorem resolveRunPort_persisted_state_witness :
    resolveRunPort (fun _ => true) 1000 50 (some (String.toList " 8080 ")) =
      (some 8080, some (String.toList " 8080 "), 0) ∧
    resolveRunPort (fun _ => true) 1000 50 (some (String.toList "abc")) =
      resolveRunPort (fun _ => true) 1000 50 none :=
  ⟨(resolveRunPort_persisted_state (fun _ => true) 1000 50).1
      (String.toList " 8080 ") 8080 (by decide) (by decide),
   (resolveRunPort_persisted_state (fun _ => true) 1000 50).2.1
      (String.toList "abc") (by decide) (by decide)⟩

/-- C8: `kill_process` makes exactly one signal-delivery attempt and maps
its outcome to exactly three failure conditions — "no such process" to the
404 not-found abort, insufficient privilege to the 403 abort, and any other
failure to the 500 abort carrying the underlying diagnostic text — while a
successful delivery raises nothing. -/
theorem kill_process_classification (deliver : Int → Int → KillOutcome) (pid sig : Int) :
    (kill_process deliver pid sig).2 = 1 ∧
    (deliver pid sig = KillOutcome.ok →
       (kill_process deliver pid sig).1 = KillResponse.success) ∧
    (deliver pid sig = KillOutcome.processLookupError →
       (kill_process deliver pid sig).1 = KillResponse.httpAbort 404 (killNotFoundMsg pid)) ∧
    (deliver pid sig = KillOutcome.permissionError →
       (kill_process deliver pid sig).1 = KillResponse.httpAbort 403 (killPermissionMsg pid)) ∧
    (∀ msg, deliver pid sig = KillOutcome.otherError msg →
       (kill_process deliver pid sig).1 = KillResponse.httpAbort 500 (killFailedMsg pid msg)) := by
  refine ⟨rfl, ?_, ?_, ?_, ?_⟩
  · intro h; simp [kill_process, h]
  · intro h; simp [kill_process, h]
  · intro h; simp [kill_process, h]
  · intro msg h; simp [kill_process, h]

/-- Witness for C8: concrete outcomes map to the concrete responses. -/
theorem kill_process_classification_witness :
    (kill_process (fun _ _ => KillOutcome.processLookupError) 99999 15).1 =
      KillResponse.httpAbort 404 (killNotFoundMsg 99999) ∧
    (kill_process (fun _ _ => KillOutcome.ok) 1234 15).1 = KillResponse.success ∧
    (kill_process (fun _ _ => KillOutcome.otherError (String.toList "boom")) 7 9).1 =
      KillResponse.httpAbort 500 (killFailedMsg 7 (String.toList "boom")) :=
  ⟨(kill_process_classification (fun _ _ => KillOutcome.processLookupError) 99999 15).2.2.1 rfl,
   (kill_process_classification (fun _ _ => KillOutcome.ok) 1234 15).2.1 rfl,
   (kill_process_classification
      (fun _ _ => KillOutcome.otherError (String.toList "boom")) 7 9).2.2.2.2 _ rfl⟩

/-- Counterexample to C9 as stated: stderr may be non-empty (a single
space) and yet the failure carries the generic message rather than the
stderr text — the source strips stderr before testing it. -/
theorem collect_ports_whitespace_stderr :
    ([' '] : List Char) ≠ [] ∧
    collect_ports detailsNone (some (String.toList "/usr/sbin/lsof"))
      (fun _ => ⟨1, [], [' ']⟩) = CollectOutcome.fetchError genericCollectMsg ∧
    genericCollectMsg ≠ [' '] :=
  ⟨by decide, by decide, by decide⟩

/-- C9 (amended): `collect_ports` fails with the utility-not-found message
when the socket-listing utility cannot be located; when the utility exits
non-zero it fails carrying the stderr text stripped of surrounding
whitespace, or the generic message if the stripped text is empty; a zero
exit returns the full parse of stdout (no partial results, and the single
`run` application models the absence of any retry). -/
theorem collect_ports_error_policy (details : Int → ProcDetails)
    (lsofPath : Option (List Char)) (run : List (List Char) → RunResult) :
    (lsofPath = none →
       collect_ports details lsofPath run = CollectOutcome.fetchError lsofNotFoundMsg) ∧
    (∀ p, lsofPath = some p →
       (let r := run [p, String.toList "-nP", String.toList "-iTCP", String.toList "-iUDP"]
        (r.returncode ≠ 0 →
           collect_ports details lsofPath run =
             CollectOutcome.fetchError
               (if (pyStrip r.err).isEmpty then genericCollectMsg else pyStrip r.err)) ∧
        (r.returncode = 0 →
           collect_ports details lsofPath run =
             CollectOutcome.ok (parseLsofOutput details r.out)))) := by
  constructor
  · intro h; subst h; rfl
  · intro p h
    subst h
    refine ⟨fun hrc => ?_, fun hrc => ?_⟩
    · simp only [collect_ports]
      rw [if_neg hrc]
    · simp only [collect_ports]
      rw [if_pos hrc]

/-- Witness for C9's amended theorem: a missing utility and a failing run
with non-blank stderr. -/
theorem collect_ports_error_policy_witness :
    collect_ports detailsNone none (fun _ => ⟨0, [], []⟩) =
      CollectOutcome.fetchError lsofNotFoundMsg ∧
    collect_ports detailsNone (some (String.toList "/usr/sbin/lsof"))
      (fun _ => ⟨1, [], String.toList "permission denied"⟩) =
      CollectOutcome.fetchError (String.toList "permission denied") := by
  constructor
  · exact (collect_ports_error_policy detailsNone none (fun _ => ⟨0, [], []⟩)).1 rfl
  · have h := ((collect_ports_error_policy detailsNone (some (String.toList "/usr/sbin/lsof"))
      (fun _ => ⟨1, [], String.toList "permission denied"⟩)).2
      (String.toList "/usr/sbin/lsof") rfl).1 (by decide)
    exact h.trans (by decide)
